import Mathlib

/-!
Verification of the fiopush repository (Go): a client that pushes an ostree
repo to an OSTree hub, and the hub-side ingest/upload pipeline.

The Go sources are shallowly embedded below:
- pkg/oshub/upload.go: RepoFile, SyncReport, uploadStatus, Check, Filter,
  Sync (object-name computation), upload, Wait (aggregation loop).
- pkg/oshub/tar.go: the per-entry checksum extraction of Untar.
- pkg/fiopush/push.go: checkRepoDir, walkAndCrcRepo, filterRepoFiles, the
  batching loop of push, and the request construction of checkRepo.

Channels are modelled as the finite lists of the values that cross them, in
the order one consumer dequeues them; goroutine pools are modelled by the
sequential behaviour of a single worker, which is the per-batch behaviour
every claim quantifies over.  Go uint32 values are Nat with an explicit
reduction modulo 2 ^ 32 wherever the Go code can overflow.  Go strings are
Lean Strings; the Go byte-level operations used by the code only ever act on
ASCII prefixes, where byte positions and character positions coincide.
-/

namespace Oshub

/-- Models Go strings.HasPrefix s pre: pre is a prefix of s.  Compared at the
level of character lists; for the ASCII prefixes used by the program this is
byte-for-byte the Go behaviour. -/
def goStartsWith (s pre : String) : Bool :=
  pre.data.isPrefixOf s.data

/-- Models the Go slice expression s[n:].  Go panics when n exceeds the length
of s; the panic is modelled by none.  (Go indexes bytes; every slice the
program takes is at an ASCII position, where the two coincide.) -/
def goSliceFrom (s : String) (n : Nat) : Option String :=
  if n ≤ s.length then some (s.drop n) else none

/-- RepoFile from pkg/oshub/upload.go: Path (repo-relative) and CRC32
(a Go uint32, modelled as a Nat below 2 ^ 32). -/
structure RepoFile where
  Path : String
  CRC32 : Nat
deriving DecidableEq, Repr

/-- SyncReport from pkg/oshub/upload.go; all four counters are Go uint32. -/
structure SyncReport where
  UploadedFileNumb : Nat
  SyncedFileNumb : Nat
  UploadSyncedFileNumb : Nat
  SyncFailedNumb : Nat
deriving DecidableEq, Repr

/-- uploadStatus from pkg/oshub/upload.go.  The Go field Object is a string
pointer to the path; modelled by the path itself.  An empty Err means no
error, exactly as the Go code tests uploadStatus.Err != "". -/
structure uploadStatus where
  Object : String
  Exist : Bool
  Err : String
deriving DecidableEq, Repr

/-- FilesToCheckMaxNumb from pkg/oshub/upload.go. -/
def FilesToCheckMaxNumb : Nat := 500

/-- One step of the bitwise Castagnoli CRC-32C: k right shifts with
conditional xor of the reversed polynomial 0x82F63B78, as computed by Go
hash/crc32 with the Castagnoli table. -/
def crc32cShift (crc : Nat) : Nat → Nat
  | 0 => crc
  | k + 1 => crc32cShift (if crc % 2 = 1 then (crc / 2) ^^^ 0x82F63B78 else crc / 2) k

/-- CRC-32C update by one byte. -/
def crc32cUpdate (crc b : Nat) : Nat :=
  crc32cShift (crc ^^^ (b % 256)) 8

/-- Castagnoli CRC-32 of a byte sequence, as computed by the client with
crc32.MakeTable(crc32.Castagnoli) in pkg/fiopush/push.go. -/
def crc32c (data : List Nat) : Nat :=
  (data.foldl crc32cUpdate 0xFFFFFFFF) ^^^ 0xFFFFFFFF

/-- Result of the bucket attributes query obj.Attrs in pkg/oshub/upload.go:
success carries the server-side CRC-32C; the two error cases are
gcs.ErrObjectNotExist and any other error. -/
inductive AttrsResult where
  | ok (crc32c : Nat)
  | notExist
  | otherErr (msg : String)
deriving DecidableEq, Repr

/-- Bucket object name computed by Check and Sync in pkg/oshub/upload.go:
objectPrefix + path[len("./objects/")-1:], i.e. the path with its first 9
bytes "./objects" removed (the slash is kept).  The callers only reach this
after establishing the "./objects/" prefix, so the slice is in range there. -/
def checkObjectName (objPfx : String) (p : String) : String :=
  objPfx ++ ((goSliceFrom p 9).getD "")

/-- Decision taken by Check in pkg/oshub/upload.go for one file: true when
the file is forwarded to the missing set.  Paths outside "./objects/" are
always forwarded; an attributes error (of either kind) forwards; a CRC
mismatch forwards; only a successful query with an equal CRC omits. -/
def checkIncludes (bucket : String → AttrsResult) (objPfx : String) (f : RepoFile) : Bool :=
  if !(goStartsWith f.Path "./objects/") then true
  else
    match bucket (checkObjectName objPfx f.Path) with
    | .ok crc => f.CRC32 != crc
    | .notExist => true
    | .otherErr _ => true

/-- Check from pkg/oshub/upload.go: the files of the incoming batch that are
forwarded to the missing set (channel objToSyncCh). -/
def Check (bucket : String → AttrsResult) (objPfx : String) (files : List RepoFile) : List RepoFile :=
  files.filter (checkIncludes bucket objPfx)

/-- Filter from pkg/oshub/upload.go: forwards to objectQueue exactly the
files whose path has the given filter prefix, and reports the total number
of files seen (a Go uint32). -/
def Filter (files : List RepoFile) (filterPfx : String) : List RepoFile × Nat :=
  (files.filter (fun f => goStartsWith f.Path filterPfx), files.length % 2 ^ 32)

/-- Object name computed by a Sync worker in pkg/oshub/upload.go:
objectPrefix + object.Path[len("./objects/")-1:].  Unlike Check, Sync takes
this slice without any prefix guard; none models the Go panic when the path
is shorter than 9 bytes. -/
def syncObjectName (objPfx : String) (p : String) : Option String :=
  (goSliceFrom p 9).map (fun suf => objPfx ++ suf)

/-- Environment of one upload invocation in pkg/oshub/upload.go: the bucket
attributes query, os.Open on the staged file, the io.Copy into the bucket
writer and the writer Close (which carries the server-side checksum
verification when SendCRC32C was armed). -/
structure UploadEnv where
  attrs : String → AttrsResult
  openFile : String → Except String Unit
  copyRes : String → Except String Nat
  closeRes : String → Option String

/-- Tail of upload from pkg/oshub/upload.go, after the attributes check has
decided to write: open the staged file, create the bucket writer (the Go
NewWriter never returns nil, so that error branch is dead), copy and close.
The Bool records whether a bucket writer was created, i.e. whether a write
was attempted; it is the effect the Go code performs on the bucket. -/
def uploadWrite (env : UploadEnv) (objectName : String) (object : RepoFile)
    (srcFilePath : String) : uploadStatus × Bool :=
  match env.openFile srcFilePath with
  | .error e => ({ Object := object.Path, Exist := false, Err := e }, false)
  | .ok _ =>
    match env.copyRes objectName with
    | .error e => ({ Object := object.Path, Exist := false, Err := e }, true)
    | .ok _ =>
      match env.closeRes objectName with
      | some e => ({ Object := object.Path, Exist := false, Err := e }, true)
      | none => ({ Object := object.Path, Exist := false, Err := "" }, true)

/-- upload from pkg/oshub/upload.go.  First the attributes query: on success
with an equal CRC the entry short-circuits with Exist true; on an error other
than not-found the worker returns that error at once; otherwise (not found,
or found with a different CRC) it proceeds to uploadWrite.  The Bool is the
write-attempted effect flag of uploadWrite. -/
def upload (env : UploadEnv) (objectName : String) (object : RepoFile)
    (srcFilePath : String) : uploadStatus × Bool :=
  match env.attrs objectName with
  | .ok crc =>
    if crc = object.CRC32 then ({ Object := object.Path, Exist := true, Err := "" }, false)
    else uploadWrite env objectName object srcFilePath
  | .notExist => uploadWrite env objectName object srcFilePath
  | .otherErr e => ({ Object := object.Path, Exist := false, Err := e }, false)

/-- One iteration of the statusQueue case of Wait in pkg/oshub/upload.go:
SyncedFileNumb always increments, SyncFailedNumb increments on a non-empty
Err, UploadSyncedFileNumb increments when Exist is false.  The counters are
Go uint32, hence the reduction modulo 2 ^ 32. -/
def statusStep (r : SyncReport) (e : uploadStatus) : SyncReport :=
  { r with
    SyncedFileNumb := (r.SyncedFileNumb + 1) % 2 ^ 32,
    SyncFailedNumb := if e.Err ≠ "" then (r.SyncFailedNumb + 1) % 2 ^ 32 else r.SyncFailedNumb,
    UploadSyncedFileNumb :=
      if e.Exist then r.UploadSyncedFileNumb else (r.UploadSyncedFileNumb + 1) % 2 ^ 32 }

/-- Wait from pkg/oshub/upload.go: UploadedFileNumb is assigned from the
filter-stage report and the upload-status events are folded until the status
channel closes. -/
def WaitAgg (fileNumb : Nat) (events : List uploadStatus) : SyncReport :=
  events.foldl statusStep
    { UploadedFileNumb := fileNumb % 2 ^ 32, SyncedFileNumb := 0,
      UploadSyncedFileNumb := 0, SyncFailedNumb := 0 }

/-- Number of events that short-circuited on an existing object with a
matching checksum (Exist true). -/
def countShortCircuit (events : List uploadStatus) : Nat :=
  events.countP (fun e => e.Exist)

/-- Number of events reporting a successful bucket write (no short-circuit,
empty Err). -/
def countWriteOk (events : List uploadStatus) : Nat :=
  events.countP (fun e => !e.Exist && e.Err == "")

/-- Number of events with a non-empty Err, as counted into SyncFailedNumb. -/
def countFailed (events : List uploadStatus) : Nat :=
  events.countP (fun e => e.Err != "")

/-- Number of events that did not short-circuit (Exist false), as counted
into UploadSyncedFileNumb. -/
def countNonSkip (events : List uploadStatus) : Nat :=
  events.countP (fun e => !e.Exist)

/-- Models Go strconv.ParseUint(s, 10, bits) combined with the error check of
the caller: some n when s is a non-empty string of decimal digits denoting n
with n < 2 ^ bits, none on any parse or range error (Go also returns the
saturated value alongside a range error; the caller in tar.go discards the
value whenever the error is non-nil, so none captures both). -/
def parseUint (s : String) (bits : Nat) : Option Nat :=
  if s.isEmpty then none
  else if s.data.all Char.isDigit then
    let n := s.data.foldl (fun a c => a * 10 + (c.toNat - 48)) 0
    if n < 2 ^ bits then some n else none
  else none

/-- Go map lookup header.PAXRecords[k]: the value of the first binding of k,
or the empty string when the key is absent. -/
def paxLookup (recs : List (String × String)) (k : String) : String :=
  ((recs.find? (fun p => p.1 == k)).map Prod.snd).getD ""

/-- Checksum computed by Untar in pkg/oshub/tar.go for one regular-file
entry: strconv.ParseUint(header.PAXRecords["FIO.ostree.CRC"], 10, 0) with
errors mapped to 0, then the Go conversion uint32(expectedCrc), which
truncates to the low 32 bits.  Bit size 0 means the platform uint width,
64 on the linux/amd64 hub. -/
def untarCRC (recs : List (String × String)) : Nat :=
  match parseUint (paxLookup recs "FIO.ostree.CRC") 64 with
  | some c => c % 2 ^ 32
  | none => 0

/-- RepoFile emitted downstream by Untar in pkg/oshub/tar.go for a
regular-file entry with the given name and PAX records. -/
def untarRegFile (name : String) (recs : List (String × String)) : RepoFile :=
  { Path := name, CRC32 := untarCRC recs }

end Oshub

namespace Fiopush

open Oshub

/-- A directory tree on disk: the input the client walks.  Contents of a
regular file are its bytes. -/
inductive FsEntry where
  | file (name : String) (content : List Nat)
  | dir (name : String) (entries : List FsEntry)

/-- Name of a directory entry, as os.Stat resolves it. -/
def FsEntry.name : FsEntry → String
  | .file n _ => n
  | .dir n _ => n

/-- repoFileFilterIn from pkg/fiopush/push.go. -/
def repoFileFilterIn : List String :=
  ["./objects/", "./config", "./refs/"]

/-- filterRepoFiles from pkg/fiopush/push.go: true when the path has one of
the three filter prefixes. -/
def filterRepoFiles (p : String) : Bool :=
  repoFileFilterIn.any (fun f => goStartsWith p f)

mutual

/-- One step of the filepath.Walk callback of walkAndCrcRepo in
pkg/fiopush/push.go, at the root-relative path rel of the surrounding
directory: a directory emits nothing by itself and is recursed into; a
regular file is emitted iff its relative path passes filterRepoFiles, with
the Castagnoli CRC of its content. -/
def walkEntry (rel : String) : FsEntry → List Oshub.RepoFile
  | .file n content =>
    let p := rel ++ "/" ++ n
    if filterRepoFiles p then [{ Path := p, CRC32 := Oshub.crc32c content }] else []
  | .dir n entries => walkEntries (rel ++ "/" ++ n) entries

/-- Walk over a list of sibling entries. -/
def walkEntries (rel : String) : List FsEntry → List Oshub.RepoFile
  | [] => []
  | e :: es => walkEntry rel e ++ walkEntries rel es

end

/-- walkAndCrcRepo from pkg/fiopush/push.go: the sequence of RepoFiles the
walker goroutine emits for a repository whose root directory holds the given
entries.  Each emitted path is the root-relative path with the root replaced
by ".", exactly as strings.Replace(fullPath, dir, ".", 1) produces it. -/
def walkAndCrcRepo (root : List FsEntry) : List Oshub.RepoFile :=
  walkEntries "." root

/-- Result of os.Stat(path.Join(dir, nm)) restricted to what checkRepoDir
observes: whether an entry of that name exists, and which entry it is. -/
def findEntry (entries : List FsEntry) (nm : String) : Option FsEntry :=
  entries.find? (fun e => e.name == nm)

/-- checkRepoDir from pkg/fiopush/push.go.  The root is none when the
directory does not exist.  Each of the three tests is os.Stat followed by
os.IsNotExist, so only existence of the named entry is examined, never its
kind. -/
def checkRepoDir (root : Option (List FsEntry)) : Except String Unit :=
  match root with
  | none => Except.error "The specified directory does not exist"
  | some entries =>
    if (findEntry entries "config").isNone then
      Except.error "The specified directory does not contain an ostree repo"
    else if (findEntry entries "objects").isNone then
      Except.error "The specified directory does not contain ostree repo objects"
    else Except.ok ()

/-- filesToCheckMaxNumb from pkg/fiopush/push.go (equal to
oshub.FilesToCheckMaxNumb). -/
def filesToCheckMaxNumb : Nat := 500

/-- Go map assignment m[k] = v on the batch map objectsToCheck, modelled on
an association list: overwrite the existing binding of k, or append a new
one.  The number of distinct keys is the list length. -/
def insertKV (m : List (String × Nat)) (k : String) (v : Nat) : List (String × Nat) :=
  if m.any (fun p => p.1 == k) then
    m.map (fun p => if p.1 == k then (k, v) else p)
  else m ++ [(k, v)]

/-- The inner batch-accumulation loop of push in pkg/fiopush/push.go: insert
files from the queue into the batch map, and break as soon as the map size
exceeds filesToCheckMaxNumb (the test runs after the insertion).  Returns the
accumulated batch and the files left on the queue. -/
def fillBatch : List (String × Nat) → List Oshub.RepoFile → List (String × Nat) × List Oshub.RepoFile
  | batch, [] => (batch, [])
  | batch, f :: rest =>
    if filesToCheckMaxNumb < (insertKV batch f.Path f.CRC32).length
    then (insertKV batch f.Path f.CRC32, rest)
    else fillBatch (insertKV batch f.Path f.CRC32) rest

/-- Outer worker loop of push in pkg/fiopush/push.go, fuel-indexed: build a
batch; stop when it is empty, otherwise send it (to checkRepo) and loop on
the remaining queue.  A fuel of one more than the queue length always
suffices, because a non-empty batch consumes at least one queued file. -/
def batchesAux : Nat → List Oshub.RepoFile → List (List (String × Nat))
  | 0, _ => []
  | fuel + 1, files =>
    if (fillBatch [] files).1.isEmpty then []
    else (fillBatch [] files).1 :: batchesAux fuel (fillBatch [] files).2

/-- The sequence of batches one push worker sends to the check endpoint when
it dequeues the given file sequence. -/
def batches (files : List Oshub.RepoFile) : List (List (String × Nat)) :=
  batchesAux (files.length + 1) files

/-- The request-shaping part of checkRepo in pkg/fiopush/push.go: method GET,
and the two headers it sets.  The Authorization header is set
unconditionally, with value fmt.Sprintf("Bearer %s", token). -/
structure HttpRequest where
  method : String
  headers : List (String × String)
deriving DecidableEq, Repr

/-- Request constructed by checkRepo in pkg/fiopush/push.go for a batch
check, as a function of the token (empty in the unauthenticated flow, where
auth() leaves pusher.token equal to ""). -/
def checkRepoRequest (token : String) : HttpRequest :=
  { method := "GET",
    headers := [("Content-Type", "application/json"),
                ("Authorization", "Bearer " ++ token)] }

/-- Distinct file path of index n, used to build concrete walker outputs:
n + 1 repetitions of the letter a.  Distinct indices give distinct paths. -/
def natPath (n : Nat) : String :=
  String.mk (List.replicate (n + 1) 'a')

/-- Concrete input queue of filesToCheckMaxNumb + 1 = 501 RepoFiles with
pairwise distinct paths, as the walker could emit for a repository holding
501 files. -/
def cexFiles : List Oshub.RepoFile :=
  (List.range (filesToCheckMaxNumb + 1)).map (fun i => { Path := natPath i, CRC32 := 0 })

end Fiopush

namespace Oshub

theorem goStartsWith_iff {s pre : String} :
    goStartsWith s pre = true ↔ pre.data <+: s.data := by
  simp [goStartsWith]

theorem goStartsWith_length {s pre : String} (h : goStartsWith s pre = true) :
    pre.length ≤ s.length :=
  List.IsPrefix.length_le (goStartsWith_iff.mp h)

theorem goStartsWith_excl {s p1 p2 : String}
    (h1 : goStartsWith s p1 = true) (h2 : goStartsWith s p2 = true)
    (hn1 : p1.data.isPrefixOf p2.data = false) (hn2 : p2.data.isPrefixOf p1.data = false) :
    False := by
  rcases List.prefix_or_prefix_of_prefix (goStartsWith_iff.mp h1) (goStartsWith_iff.mp h2)
    with h | h
  · rw [← List.isPrefixOf_iff_prefix] at h
    exact absurd h (by simp [hn1])
  · rw [← List.isPrefixOf_iff_prefix] at h
    exact absurd h (by simp [hn2])

/-- C2: for every batch processed through the check endpoint worker loop, the
forwarded missing set is drawn from the batch, and every file of the batch
that is omitted is one whose bucket attributes query succeeded and returned a
server-side CRC-32C equal to the checksum declared in the batch. -/
theorem C2_check_missing_subset (bucket : String → AttrsResult) (objPfx : String)
    (files : List RepoFile) :
    (∀ f ∈ Check bucket objPfx files, f ∈ files) ∧
    (∀ f ∈ files, f ∉ Check bucket objPfx files →
      goStartsWith f.Path "./objects/" = true ∧
      bucket (checkObjectName objPfx f.Path) = .ok f.CRC32) := by
  constructor
  · intro f hf
    exact (List.mem_filter.mp hf).1
  · intro f hf hnf
    have hp : checkIncludes bucket objPfx f = false := by
      by_contra hcontra
      exact hnf (List.mem_filter.mpr ⟨hf, by simpa using hcontra⟩)
    unfold checkIncludes at hp
    by_cases hpre : goStartsWith f.Path "./objects/" = true
    · refine ⟨hpre, ?_⟩
      rw [hpre] at hp
      simp only [Bool.not_true, Bool.false_eq_true, if_false] at hp
      rcases hb : bucket (checkObjectName objPfx f.Path) with crc | _ | msg
      · rw [hb] at hp
        simp only [bne_eq_false_iff_eq] at hp
        rw [hp]
      · rw [hb] at hp
        simp at hp
      · rw [hb] at hp
        simp at hp
    · exfalso
      have : goStartsWith f.Path "./objects/" = false := by
        simpa using hpre
      rw [this] at hp
      simp at hp

theorem C2_witness :
    (({ Path := "./objects/ab", CRC32 := 5 } : RepoFile) ∈
        [({ Path := "./objects/ab", CRC32 := 5 } : RepoFile)]) ∧
    (({ Path := "./objects/ab", CRC32 := 5 } : RepoFile) ∉
        Check (fun _ => .ok 5) "p" [{ Path := "./objects/ab", CRC32 := 5 }]) ∧
    (fun _ => AttrsResult.ok 5) (checkObjectName "p" "./objects/ab") = .ok 5 := by
  have h := (C2_check_missing_subset (fun _ => .ok 5) "p"
      [{ Path := "./objects/ab", CRC32 := 5 }]).2
    { Path := "./objects/ab", CRC32 := 5 } (by simp) (by decide)
  exact ⟨by simp, by decide, h.2⟩

end Oshub

namespace Oshub

/-- C3 counterexample: the entry "./config" emitted by the unpacker, fed to
the filter/splitter stage with the "./objects/" routing, is counted in
the forwarded-file total but forwarded to no upload path at all: the
object queue is empty and Filter has no other output.  The claim that such
entries are "still uploaded through an unconditional path" is therefore
false of the code. -/
theorem C3_counterexample :
    (Filter [{ Path := "./config", CRC32 := 7 }] "./objects/").1 = [] ∧
    (Filter [{ Path := "./config", CRC32 := 7 }] "./objects/").2 = 1 := by
  constructor
  · decide
  · decide

/-- C3 amended: an entry whose path does not start with the filter prefix
"./objects/" is discarded by the filter/splitter stage - it is never
forwarded to the uploader queue, which is the only entry route to the
upload workers - and only its count toward the forwarded-file total is
retained. -/
theorem C3_filter_discards (files : List RepoFile) (f : RepoFile) (_hf : f ∈ files)
    (hnp : goStartsWith f.Path "./objects/" = false) :
    f ∉ (Filter files "./objects/").1 ∧
    (Filter files "./objects/").2 = files.length % 2 ^ 32 := by
  constructor
  · intro hmem
    have hkeep : goStartsWith f.Path "./objects/" = true := by
      have := (List.mem_filter.mp hmem).2
      simpa using this
    rw [hnp] at hkeep
    exact absurd hkeep (by simp)
  · rfl

theorem C3_witness :
    (({ Path := "./config", CRC32 := 9 } : RepoFile) ∈
        [({ Path := "./config", CRC32 := 9 } : RepoFile)]) ∧
    goStartsWith "./config" "./objects/" = false ∧
    (({ Path := "./config", CRC32 := 9 } : RepoFile) ∉
        (Filter [{ Path := "./config", CRC32 := 9 }] "./objects/").1) := by
  have h := C3_filter_discards [{ Path := "./config", CRC32 := 9 }]
    { Path := "./config", CRC32 := 9 } (by simp) (by decide)
  exact ⟨by simp, by decide, h.1⟩

/-- C10: the bucket key a Sync worker computes is total on every file that
the upstream Filter stage (run with the "./objects/" routing) can deliver,
because the filter established the "./objects/" prefix and hence a path of
at least 9 units; on a shorter path such as "./config" reaching the slice
directly, the Go slice expression is out of range (modelled by none). -/
theorem C10_sync_slice_total (objPfx : String) (files : List RepoFile) :
    (∀ f ∈ (Filter files "./objects/").1, (syncObjectName objPfx f.Path).isSome = true) ∧
    goSliceFrom "./config" 9 = none := by
  constructor
  · intro f hf
    have hpre : goStartsWith f.Path "./objects/" = true := by
      have := (List.mem_filter.mp hf).2
      simpa using this
    have hlen10 : ("./objects/" : String).length ≤ f.Path.length := goStartsWith_length hpre
    have hlen : 9 ≤ f.Path.length := by
      have h10 : ("./objects/" : String).length = 10 := by decide
      omega
    simp [syncObjectName, goSliceFrom, hlen]
  · decide

theorem C10_witness :
    (({ Path := "./objects/x", CRC32 := 0 } : RepoFile) ∈
        (Filter [{ Path := "./objects/x", CRC32 := 0 }] "./objects/").1) ∧
    (syncObjectName "p/" "./objects/x").isSome = true :=
  ⟨by decide,
   (C10_sync_slice_total "p/" [{ Path := "./objects/x", CRC32 := 0 }]).1
     { Path := "./objects/x", CRC32 := 0 } (by decide)⟩

end Oshub

namespace Oshub

/-- C4 counterexample: with a bucket whose attributes query fails with an
error other than not-found, and a staged file that would open and copy
successfully, the upload worker returns the query error immediately - the
effect flag shows no bucket writer was ever created, so the entry is not
uploaded, contradicting the claim that the worker still proceeds to open and
upload it. -/
theorem C4_counterexample :
    upload
      { attrs := fun _ => .otherErr "attrs boom", openFile := fun _ => .ok (),
        copyRes := fun _ => .ok 0, closeRes := fun _ => none }
      "k" { Path := "./objects/a", CRC32 := 1 } "staged/a"
      = ({ Object := "./objects/a", Exist := false, Err := "attrs boom" }, false) := rfl

/-- C4 amended: when the bucket attributes query fails with an error other
than not-found, the upload worker aborts that entry at once: it emits the
query error as the status (Exist false) and never opens the staged file or
creates a bucket writer. -/
theorem C4_other_error_aborts (env : UploadEnv) (objectName : String)
    (object : RepoFile) (srcFilePath : String) (e : String)
    (h : env.attrs objectName = .otherErr e) :
    upload env objectName object srcFilePath
      = ({ Object := object.Path, Exist := false, Err := e }, false) := by
  unfold upload
  rw [h]

theorem C4_witness :
    (fun (_ : String) => AttrsResult.otherErr "eacces") "k" = .otherErr "eacces" ∧
    upload
      { attrs := fun _ => .otherErr "eacces", openFile := fun _ => .ok (),
        copyRes := fun _ => .ok 0, closeRes := fun _ => none }
      "k" { Path := "./objects/b", CRC32 := 2 } "staged/b"
      = ({ Object := "./objects/b", Exist := false, Err := "eacces" }, false) :=
  ⟨rfl,
   C4_other_error_aborts
     { attrs := fun _ => .otherErr "eacces", openFile := fun _ => .ok (),
       copyRes := fun _ => .ok 0, closeRes := fun _ => none }
     "k" { Path := "./objects/b", CRC32 := 2 } "staged/b" "eacces" rfl⟩

theorem uploadWrite_exist_false (env : UploadEnv) (objectName : String)
    (object : RepoFile) (srcFilePath : String) :
    (uploadWrite env objectName object srcFilePath).1.Exist = false := by
  unfold uploadWrite
  rcases env.openFile srcFilePath with e1 | u
  · rfl
  · rcases env.copyRes objectName with e2 | n
    · rfl
    · rcases env.closeRes objectName with _ | e3 <;> rfl

theorem upload_exist_imp_err (env : UploadEnv) (objectName : String)
    (object : RepoFile) (srcFilePath : String)
    (h : (upload env objectName object srcFilePath).1.Exist = true) :
    (upload env objectName object srcFilePath).1.Err = "" := by
  unfold upload at h ⊢
  rcases hAttrs : env.attrs objectName with crc | _ | e
  · rw [hAttrs] at h
    by_cases hc : crc = object.CRC32
    · simp [hc]
    · simp [hc, uploadWrite_exist_false env objectName object srcFilePath] at h
  · rw [hAttrs] at h
    simp [uploadWrite_exist_false env objectName object srcFilePath] at h
  · rw [hAttrs] at h
    simp at h

theorem statusStep_synced (r : SyncReport) (e : uploadStatus) :
    (statusStep r e).SyncedFileNumb = (r.SyncedFileNumb + 1) % 2 ^ 32 := rfl

theorem statusStep_uploaded (r : SyncReport) (e : uploadStatus) :
    (statusStep r e).UploadedFileNumb = r.UploadedFileNumb := rfl

theorem statusStep_failed (r : SyncReport) (e : uploadStatus) :
    (statusStep r e).SyncFailedNumb
      = if e.Err ≠ "" then (r.SyncFailedNumb + 1) % 2 ^ 32 else r.SyncFailedNumb := rfl

theorem statusStep_upsynced (r : SyncReport) (e : uploadStatus) :
    (statusStep r e).UploadSyncedFileNumb
      = if e.Exist then r.UploadSyncedFileNumb
        else (r.UploadSyncedFileNumb + 1) % 2 ^ 32 := rfl

theorem waitAgg_foldl_fields (events : List uploadStatus) :
    ∀ r : SyncReport,
      r.SyncedFileNumb < 2 ^ 32 → r.SyncFailedNumb < 2 ^ 32 →
      r.UploadSyncedFileNumb < 2 ^ 32 →
      (events.foldl statusStep r).SyncedFileNumb
          = (r.SyncedFileNumb + events.length) % 2 ^ 32 ∧
      (events.foldl statusStep r).SyncFailedNumb
          = (r.SyncFailedNumb + countFailed events) % 2 ^ 32 ∧
      (events.foldl statusStep r).UploadSyncedFileNumb
          = (r.UploadSyncedFileNumb + countNonSkip events) % 2 ^ 32 ∧
      (events.foldl statusStep r).UploadedFileNumb = r.UploadedFileNumb := by
  induction events with
  | nil =>
    intro r h1 h2 h3
    refine ⟨?_, ?_, ?_, rfl⟩
    · simpa using (Nat.mod_eq_of_lt h1).symm
    · simp only [List.foldl_nil, countFailed, List.countP_nil, Nat.add_zero]
      exact (Nat.mod_eq_of_lt h2).symm
    · simp only [List.foldl_nil, countNonSkip, List.countP_nil, Nat.add_zero]
      exact (Nat.mod_eq_of_lt h3).symm
  | cons e es ih =>
    intro r h1 h2 h3
    have hpow : 0 < 2 ^ 32 := by positivity
    have hb1 : (statusStep r e).SyncedFileNumb < 2 ^ 32 := by
      rw [statusStep_synced]
      exact Nat.mod_lt _ hpow
    have hb2 : (statusStep r e).SyncFailedNumb < 2 ^ 32 := by
      rw [statusStep_failed]
      split
      · exact Nat.mod_lt _ hpow
      · exact h2
    have hb3 : (statusStep r e).UploadSyncedFileNumb < 2 ^ 32 := by
      rw [statusStep_upsynced]
      split
      · exact h3
      · exact Nat.mod_lt _ hpow
    obtain ⟨ihS, ihF, ihU, ihUp⟩ := ih (statusStep r e) hb1 hb2 hb3
    refine ⟨?_, ?_, ?_, ?_⟩
    · rw [List.foldl_cons, ihS, statusStep_synced, Nat.mod_add_mod, List.length_cons]
      have harr : r.SyncedFileNumb + 1 + es.length
          = r.SyncedFileNumb + (es.length + 1) := by omega
      rw [harr]
    · rw [List.foldl_cons, ihF, statusStep_failed]
      have hcons : countFailed (e :: es)
          = countFailed es + if (e.Err != "") = true then 1 else 0 :=
        List.countP_cons _ _ _
      by_cases he : e.Err = ""
      · rw [if_neg (by simp [he]), hcons]
        have hfb : (e.Err != "") = false := by simp [he]
        rw [hfb]
        simp
      · rw [if_pos he, hcons, Nat.mod_add_mod]
        have htb : (e.Err != "") = true := by simpa using he
        rw [htb]
        simp only [if_true]
        have harr : r.SyncFailedNumb + 1 + countFailed es
            = r.SyncFailedNumb + (countFailed es + 1) := by omega
        rw [harr]
    · rw [List.foldl_cons, ihU, statusStep_upsynced]
      have hcons : countNonSkip (e :: es)
          = countNonSkip es + if (!e.Exist) = true then 1 else 0 :=
        List.countP_cons _ _ _
      by_cases he : e.Exist
      · rw [if_pos he, hcons]
        have hfb : (!e.Exist) = false := by simp [he]
        rw [hfb]
        simp
      · rw [if_neg he, hcons, Nat.mod_add_mod]
        have htb : (!e.Exist) = true := by simpa using he
        rw [htb]
        simp only [if_true]
        have harr : r.UploadSyncedFileNumb + 1 + countNonSkip es
            = r.UploadSyncedFileNumb + (countNonSkip es + 1) := by omega
        rw [harr]
    · rw [List.foldl_cons, ihUp, statusStep_uploaded]

theorem events_length_partition (events : List uploadStatus)
    (hinv : ∀ e ∈ events, e.Exist = true → e.Err = "") :
    events.length = countFailed events + countShortCircuit events + countWriteOk events := by
  induction events with
  | nil => rfl
  | cons e es ih =>
    have hinvTail : ∀ x ∈ es, x.Exist = true → x.Err = "" := by
      intro x hx
      exact hinv x (List.mem_cons_of_mem _ hx)
    have hhead := hinv e (List.mem_cons_self _ _)
    have h1 : countFailed (e :: es)
        = countFailed es + if (e.Err != "") = true then 1 else 0 := List.countP_cons _ _ _
    have h2 : countShortCircuit (e :: es)
        = countShortCircuit es + if e.Exist = true then 1 else 0 := List.countP_cons _ _ _
    have h3 : countWriteOk (e :: es)
        = countWriteOk es + if (!e.Exist && e.Err == "") = true then 1 else 0 :=
      List.countP_cons _ _ _
    rw [List.length_cons, ih hinvTail, h1, h2, h3]
    by_cases hex : e.Exist = true
    · have herr : e.Err = "" := hhead hex
      simp [hex, herr]
      omega
    · have hex' : e.Exist = false := by simpa using hex
      by_cases herr : e.Err = ""
      · simp [hex', herr]
        omega
      · have : (e.Err != "") = true := by simpa using herr
        simp [hex', herr, this]
        omega

/-- C5: over any finite sequence of upload-status events produced by the
upload workers, the aggregated SyncReport satisfies synced = sync_failed +
(events that short-circuited on an existing matching object) + (successful
writes), and upload_synced equals the number of events that did not
short-circuit; stated below the uint32 wrap-around bound, where the Go
counters are exact. -/
theorem C5_syncreport_identity (fileNumb : Nat) (events : List uploadStatus)
    (hsrc : ∀ e ∈ events, ∃ env objectName object srcFilePath,
      e = (upload env objectName object srcFilePath).1)
    (hlen : events.length < 2 ^ 32) :
    (WaitAgg fileNumb events).SyncedFileNumb
        = (WaitAgg fileNumb events).SyncFailedNumb
          + countShortCircuit events + countWriteOk events ∧
    (WaitAgg fileNumb events).UploadSyncedFileNumb = countNonSkip events := by
  have hinv : ∀ e ∈ events, e.Exist = true → e.Err = "" := by
    intro e he hx
    obtain ⟨env, objectName, object, srcFilePath, rfl⟩ := hsrc e he
    exact upload_exist_imp_err env objectName object srcFilePath hx
  have hpart := events_length_partition events hinv
  have hfields := waitAgg_foldl_fields events
    { UploadedFileNumb := fileNumb % 2 ^ 32, SyncedFileNumb := 0,
      UploadSyncedFileNumb := 0, SyncFailedNumb := 0 }
    (by positivity) (by positivity) (by positivity)
  have hcf : countFailed events ≤ events.length := List.countP_le_length _
  have hcn : countNonSkip events ≤ events.length := List.countP_le_length _
  have hS : (WaitAgg fileNumb events).SyncedFileNumb = events.length := by
    have h := hfields.1
    rw [Nat.zero_add, Nat.mod_eq_of_lt hlen] at h
    exact h
  have hF : (WaitAgg fileNumb events).SyncFailedNumb = countFailed events := by
    have h := hfields.2.1
    rw [Nat.zero_add, Nat.mod_eq_of_lt (lt_of_le_of_lt hcf hlen)] at h
    exact h
  have hU : (WaitAgg fileNumb events).UploadSyncedFileNumb = countNonSkip events := by
    have h := hfields.2.2.1
    rw [Nat.zero_add, Nat.mod_eq_of_lt (lt_of_le_of_lt hcn hlen)] at h
    exact h
  refine ⟨?_, hU⟩
  rw [hS, hF]
  omega

theorem C5_witness :
    (∀ e ∈ [({ Object := "./objects/c", Exist := false, Err := "" } : uploadStatus)],
      ∃ env objectName object srcFilePath,
        e = (upload env objectName object srcFilePath).1) ∧
    ([({ Object := "./objects/c", Exist := false, Err := "" } : uploadStatus)].length < 2 ^ 32) ∧
    ((WaitAgg 3 [{ Object := "./objects/c", Exist := false, Err := "" }]).SyncedFileNumb
        = (WaitAgg 3 [{ Object := "./objects/c", Exist := false, Err := "" }]).SyncFailedNumb
          + countShortCircuit [{ Object := "./objects/c", Exist := false, Err := "" }]
          + countWriteOk [{ Object := "./objects/c", Exist := false, Err := "" }] ∧
      (WaitAgg 3 [{ Object := "./objects/c", Exist := false, Err := "" }]).UploadSyncedFileNumb
        = countNonSkip [{ Object := "./objects/c", Exist := false, Err := "" }]) := by
  have hsrc : ∀ e ∈ [({ Object := "./objects/c", Exist := false, Err := "" } : uploadStatus)],
      ∃ env objectName object srcFilePath,
        e = (upload env objectName object srcFilePath).1 := by
    intro e he
    rw [List.mem_singleton] at he
    subst he
    exact ⟨{ attrs := fun _ => .notExist, openFile := fun _ => .ok (),
             copyRes := fun _ => .ok 0, closeRes := fun _ => none },
           "k", { Path := "./objects/c", CRC32 := 0 }, "s", rfl⟩
  have hlen : ([({ Object := "./objects/c", Exist := false, Err := "" } : uploadStatus)].length
      < 2 ^ 32) := by norm_num
  exact ⟨hsrc, hlen, C5_syncreport_identity 3 _ hsrc hlen⟩

end Oshub

namespace Oshub

/-- C6 counterexample: a regular-file entry whose PAX record FIO.ostree.CRC
is "4294967296" parses under strconv.ParseUint(_, 10, 0) as c = 2 ^ 32, yet
the emitted RepoFile carries checksum uint32(c) = 0, not c.  The claim that a
parsed record always yields checksum c is therefore false of the code. -/
theorem C6_counterexample :
    parseUint (paxLookup [("FIO.ostree.CRC", "4294967296")] "FIO.ostree.CRC") 64
      = some 4294967296 ∧
    (untarRegFile "f" [("FIO.ostree.CRC", "4294967296")]).CRC32 = 0 ∧
    (4294967296 : Nat) ≠ 0 := by
  refine ⟨by decide, by decide, by norm_num⟩

/-- C6 amended: when the PAX record FIO.ostree.CRC parses as the unsigned
integer c, the emitted RepoFile checksum is c modulo 2 ^ 32 (the Go uint32
truncation; equal to c whenever c < 2 ^ 32); when the record is absent or
unparsable (including out of uint64 range), the checksum is 0. -/
theorem C6_untar_checksum (name : String) (recs : List (String × String)) :
    (∀ c, parseUint (paxLookup recs "FIO.ostree.CRC") 64 = some c →
      (untarRegFile name recs).CRC32 = c % 2 ^ 32) ∧
    (parseUint (paxLookup recs "FIO.ostree.CRC") 64 = none →
      (untarRegFile name recs).CRC32 = 0) := by
  constructor
  · intro c hc
    simp [untarRegFile, untarCRC, hc]
  · intro hn
    simp [untarRegFile, untarCRC, hn]

theorem C6_witness :
    parseUint (paxLookup [("FIO.ostree.CRC", "7")] "FIO.ostree.CRC") 64 = some 7 ∧
    (untarRegFile "g" [("FIO.ostree.CRC", "7")]).CRC32 = 7 % 2 ^ 32 := by
  have h := (C6_untar_checksum "g" [("FIO.ostree.CRC", "7")]).1 7 (by decide)
  exact ⟨by decide, h⟩

end Oshub

namespace Fiopush

open Oshub

/-- C8 counterexample: in the unauthenticated flow the token is the empty
string, yet checkRepo still sets the Authorization header, with the value
"Bearer " (fmt.Sprintf with an empty token).  The claim that the
unauthenticated request carries no Authorization header is false of the
code. -/
theorem C8_counterexample :
    (checkRepoRequest "").headers.find? (fun h => h.1 == "Authorization")
      = some ("Authorization", "Bearer ") := by
  decide

/-- C8 amended: every check request carries the Authorization header,
whether or not a token is present; its value is "Bearer " followed by the
token (so "Bearer " with a trailing space in the unauthenticated flow). -/
theorem C8_auth_header_always (token : String) :
    (checkRepoRequest token).method = "GET" ∧
    (checkRepoRequest token).headers.find? (fun h => h.1 == "Authorization")
      = some ("Authorization", "Bearer " ++ token) := by
  constructor
  · rfl
  · show List.find? (fun h => h.1 == "Authorization")
        [("Content-Type", "application/json"), ("Authorization", "Bearer " ++ token)]
      = some ("Authorization", "Bearer " ++ token)
    rw [List.find?_cons_of_neg _ (by decide), List.find?_cons_of_pos _ (by rfl)]

/-- C9 counterexample: a root whose entry named config is a directory and
whose entry named objects is a regular file passes checkRepoDir, because the
code only tests existence via os.Stat and os.IsNotExist.  The claim that
such a root is rejected is false of the code. -/
theorem C9_counterexample :
    findEntry [FsEntry.dir "config" [], FsEntry.file "objects" []] "config"
      = some (FsEntry.dir "config" []) ∧
    findEntry [FsEntry.dir "config" [], FsEntry.file "objects" []] "objects"
      = some (FsEntry.file "objects" []) ∧
    checkRepoDir (some [FsEntry.dir "config" [], FsEntry.file "objects" []])
      = Except.ok () := by
  refine ⟨rfl, rfl, rfl⟩

/-- C9 amended: construction of the pusher passes the pre-flight repository
check exactly when the root directory exists and contains entries named
config and objects, of any file kind; the kind of either entry is never
examined. -/
theorem C9_check_repo_dir (root : Option (List FsEntry)) :
    checkRepoDir root = Except.ok () ↔
      ∃ entries, root = some entries ∧
        (findEntry entries "config").isSome = true ∧
        (findEntry entries "objects").isSome = true := by
  cases root with
  | none =>
    simp [checkRepoDir]
  | some entries =>
    simp only [checkRepoDir]
    by_cases h1 : (findEntry entries "config").isNone
    · rw [if_pos h1]
      simp only [Option.isNone_iff_eq_none] at h1
      simp [h1]
    · rw [if_neg h1]
      by_cases h2 : (findEntry entries "objects").isNone
      · rw [if_pos h2]
        simp only [Option.isNone_iff_eq_none] at h2
        simp [h2]
      · rw [if_neg h2]
        simp only [Option.isNone_iff_eq_none] at h1 h2
        simp only [Option.isSome_iff_ne_none]
        constructor
        · intro _
          exact ⟨entries, rfl, h1, h2⟩
        · intro _
          trivial

theorem C9_witness :
    checkRepoDir (some [FsEntry.file "config" [3], FsEntry.dir "objects" []])
      = Except.ok () :=
  (C9_check_repo_dir (some [FsEntry.file "config" [3], FsEntry.dir "objects" []])).mpr
    ⟨[FsEntry.file "config" [3], FsEntry.dir "objects" []], rfl, by rfl, by rfl⟩

end Fiopush

namespace Fiopush

open Oshub

mutual

theorem walkEntry_filter (rel : String) :
    ∀ e : FsEntry, ∀ rf ∈ walkEntry rel e, filterRepoFiles rf.Path = true
  | .file n content => by
    intro rf hrf
    rw [walkEntry] at hrf
    by_cases h : filterRepoFiles (rel ++ "/" ++ n) = true
    · simp only [h, if_true, List.mem_singleton] at hrf
      subst hrf
      exact h
    · simp only [eq_false_of_ne_true h, Bool.false_eq_true, if_false,
        List.not_mem_nil] at hrf
  | .dir n entries => by
    intro rf hrf
    rw [walkEntry] at hrf
    exact walkEntries_filter (rel ++ "/" ++ n) entries rf hrf

theorem walkEntries_filter (rel : String) :
    ∀ es : List FsEntry, ∀ rf ∈ walkEntries rel es, filterRepoFiles rf.Path = true
  | [] => by
    intro rf hrf
    rw [walkEntries] at hrf
    exact absurd hrf (List.not_mem_nil rf)
  | e :: es => by
    intro rf hrf
    rw [walkEntries] at hrf
    rcases List.mem_append.mp hrf with h | h
    · exact walkEntry_filter rel e rf h
    · exact walkEntries_filter rel es rf h

end

theorem goStartsWith_pair_false {s pa pb : String}
    (ha : goStartsWith s pa = true) (hb : pa.data.isPrefixOf pb.data = false)
    (hba : pb.data.isPrefixOf pa.data = false) : goStartsWith s pb = false := by
  by_cases h : goStartsWith s pb = true
  · exact absurd (goStartsWith_excl ha h hb hba) (by simp)
  · simpa using h

theorem filterRepoFiles_cases {p : String} (h : filterRepoFiles p = true) :
    goStartsWith p "./objects/" = true ∨ goStartsWith p "./config" = true ∨
    goStartsWith p "./refs/" = true := by
  have := List.any_eq_true.mp (by simpa [filterRepoFiles] using h)
  rcases this with ⟨q, hq, hsw⟩
  simp only [repoFileFilterIn, List.mem_cons, List.mem_singleton] at hq
  rcases hq with rfl | rfl | rfl | hfalse
  · exact Or.inl hsw
  · exact Or.inr (Or.inl hsw)
  · exact Or.inr (Or.inr hsw)
  · exact absurd hfalse (List.not_mem_nil q)

/-- C7: every RepoFile the walker emits has a path that begins with exactly
one of "./objects/", "./config", "./refs/"; files matching none of the
three prefixes, and directories, are never emitted (the walker model emits
RepoFiles only for regular files passing filterRepoFiles). -/
theorem C7_walker_exactly_one (tree : List FsEntry) (rf : Oshub.RepoFile)
    (h : rf ∈ walkAndCrcRepo tree) :
    (goStartsWith rf.Path "./objects/" = true ∧ goStartsWith rf.Path "./config" = false ∧
      goStartsWith rf.Path "./refs/" = false) ∨
    (goStartsWith rf.Path "./objects/" = false ∧ goStartsWith rf.Path "./config" = true ∧
      goStartsWith rf.Path "./refs/" = false) ∨
    (goStartsWith rf.Path "./objects/" = false ∧ goStartsWith rf.Path "./config" = false ∧
      goStartsWith rf.Path "./refs/" = true) := by
  have hfil : filterRepoFiles rf.Path = true := walkEntries_filter "." tree rf h
  rcases filterRepoFiles_cases hfil with ha | hb | hc
  · exact Or.inl ⟨ha,
      goStartsWith_pair_false ha (by decide) (by decide),
      goStartsWith_pair_false ha (by decide) (by decide)⟩
  · exact Or.inr (Or.inl ⟨goStartsWith_pair_false hb (by decide) (by decide), hb,
      goStartsWith_pair_false hb (by decide) (by decide)⟩)
  · exact Or.inr (Or.inr ⟨goStartsWith_pair_false hc (by decide) (by decide),
      goStartsWith_pair_false hc (by decide) (by decide), hc⟩)

theorem C7_witness :
    (({ Path := "./objects/ab", CRC32 := 0 } : Oshub.RepoFile)
        ∈ walkAndCrcRepo [FsEntry.dir "objects" [FsEntry.file "ab" []],
            FsEntry.file "config" []]) ∧
    goStartsWith "./objects/ab" "./objects/" = true ∧
    goStartsWith "./objects/ab" "./config" = false ∧
    goStartsWith "./objects/ab" "./refs/" = false := by
  have hmem : ({ Path := "./objects/ab", CRC32 := 0 } : Oshub.RepoFile)
      ∈ walkAndCrcRepo [FsEntry.dir "objects" [FsEntry.file "ab" []],
          FsEntry.file "config" []] := by decide
  have h := C7_walker_exactly_one
    [FsEntry.dir "objects" [FsEntry.file "ab" []], FsEntry.file "config" []]
    { Path := "./objects/ab", CRC32 := 0 } hmem
  rcases h with ⟨h1, h2, h3⟩ | ⟨h1, _, _⟩ | ⟨h1, _, _⟩
  · exact ⟨hmem, h1, h2, h3⟩
  · exact absurd h1 (by decide)
  · exact absurd h1 (by decide)

end Fiopush

namespace Fiopush

open Oshub

theorem insertKV_length_le (m : List (String × Nat)) (k : String) (v : Nat) :
    (insertKV m k v).length ≤ m.length + 1 := by
  unfold insertKV
  split
  · simp
  · simp

theorem fillBatch_fst_le (files : List Oshub.RepoFile) :
    ∀ batch : List (String × Nat), batch.length ≤ filesToCheckMaxNumb →
      (fillBatch batch files).1.length ≤ filesToCheckMaxNumb + 1 := by
  induction files with
  | nil =>
    intro batch h
    rw [fillBatch]
    exact Nat.le_succ_of_le h
  | cons f rest ih =>
    intro batch h
    rw [fillBatch]
    have hins : (insertKV batch f.Path f.CRC32).length ≤ filesToCheckMaxNumb + 1 :=
      le_trans (insertKV_length_le batch f.Path f.CRC32) (by omega)
    by_cases hlt : filesToCheckMaxNumb < (insertKV batch f.Path f.CRC32).length
    · rw [if_pos hlt]
      exact hins
    · rw [if_neg hlt]
      exact ih (insertKV batch f.Path f.CRC32) (by omega)

theorem batchesAux_mem_le (fuel : Nat) :
    ∀ files : List Oshub.RepoFile, ∀ b ∈ batchesAux fuel files,
      b.length ≤ filesToCheckMaxNumb + 1 := by
  induction fuel with
  | zero =>
    intro files b hb
    rw [batchesAux] at hb
    exact absurd hb (List.not_mem_nil b)
  | succ n ih =>
    intro files b hb
    rw [batchesAux] at hb
    by_cases he : (fillBatch [] files).1.isEmpty
    · simp only [he, if_true] at hb
      exact absurd hb (List.not_mem_nil b)
    · simp only [he, Bool.false_eq_true, if_false, List.mem_cons] at hb
      rcases hb with rfl | hb
      · exact fillBatch_fst_le files [] (by simp [filesToCheckMaxNumb])
      · exact ih (fillBatch [] files).2 b hb

/-- C1 amended: every batch the batcher sends to the check endpoint has
cardinality at most filesToCheckMaxNumb + 1 = 501, because the Go loop
tests len(objectsToCheck) > filesToCheckMaxNumb only after inserting; a
batch of exactly 501 distinct files is sent as one request (see the
counterexample), and only a 502nd file would force a second batch. -/
theorem C1_batch_bound (files : List Oshub.RepoFile) (b : List (String × Nat))
    (hb : b ∈ batches files) : b.length ≤ filesToCheckMaxNumb + 1 :=
  batchesAux_mem_le (files.length + 1) files b hb

theorem C1_witness :
    ([("./config", 3)] ∈ batches [{ Path := "./config", CRC32 := 3 }]) ∧
    ([(("./config" : String), (3 : Nat))].length ≤ filesToCheckMaxNumb + 1) :=
  ⟨by decide, C1_batch_bound [{ Path := "./config", CRC32 := 3 }] [("./config", 3)] (by decide)⟩

theorem insertKV_not_mem (m : List (String × Nat)) (k : String) (v : Nat)
    (h : ∀ p ∈ m, p.1 ≠ k) : insertKV m k v = m ++ [(k, v)] := by
  unfold insertKV
  rw [if_neg]
  simp only [List.any_eq_true, beq_iff_eq, not_exists]
  intro p
  intro hcon
  exact absurd hcon.2 (h p hcon.1)

theorem fillBatch_nodup (files : List Oshub.RepoFile) :
    ∀ batch : List (String × Nat),
      (batch.map Prod.fst ++ files.map Oshub.RepoFile.Path).Nodup →
      batch.length + files.length ≤ filesToCheckMaxNumb + 1 →
      fillBatch batch files = (batch ++ files.map (fun f => (f.Path, f.CRC32)), []) := by
  induction files with
  | nil =>
    intro batch _ _
    rw [fillBatch]
    simp
  | cons f rest ih =>
    intro batch hnd hlen
    rw [fillBatch]
    have hnotm : ∀ p ∈ batch, p.1 ≠ f.Path := by
      intro p hp hpk
      have hdisj := (List.nodup_append.mp hnd).2.2
      have hmem1 : p.1 ∈ batch.map Prod.fst := List.mem_map_of_mem Prod.fst hp
      have hmem2 : p.1 ∉ (f :: rest).map Oshub.RepoFile.Path := hdisj hmem1
      rw [List.map_cons, hpk] at hmem2
      exact hmem2 (List.mem_cons_self _ _)
    have hins : insertKV batch f.Path f.CRC32 = batch ++ [(f.Path, f.CRC32)] :=
      insertKV_not_mem batch f.Path f.CRC32 hnotm
    rw [hins]
    have hlist : batch ++ (f :: rest).map (fun g => (g.Path, g.CRC32))
        = (batch ++ [(f.Path, f.CRC32)]) ++ rest.map (fun g => (g.Path, g.CRC32)) := by
      rw [List.map_cons, List.append_assoc, List.singleton_append]
    by_cases hlt : filesToCheckMaxNumb < (batch ++ [(f.Path, f.CRC32)]).length
    · rw [if_pos hlt]
      have hr : rest = [] := by
        rcases rest with _ | ⟨g, gs⟩
        · rfl
        · exfalso
          rw [List.length_append, List.length_singleton] at hlt
          rw [List.length_cons, List.length_cons] at hlen
          omega
      subst hr
      rw [hlist]
      simp
    · rw [if_neg hlt]
      have hnd' : ((batch ++ [(f.Path, f.CRC32)]).map Prod.fst
          ++ rest.map Oshub.RepoFile.Path).Nodup := by
        simpa [List.map_append, List.append_assoc] using hnd
      have hlen' : (batch ++ [(f.Path, f.CRC32)]).length + rest.length
          ≤ filesToCheckMaxNumb + 1 := by
        rw [List.length_append, List.length_singleton]
        rw [List.length_cons] at hlen
        omega
      rw [ih (batch ++ [(f.Path, f.CRC32)]) hnd' hlen']
      rw [hlist]

end Fiopush

namespace Fiopush

open Oshub

theorem natPath_inj {a b : Nat} (h : natPath a = natPath b) : a = b := by
  have h2 : List.replicate (a + 1) 'a' = List.replicate (b + 1) 'a' :=
    congrArg String.data h
  have h3 := congrArg List.length h2
  simpa using h3

theorem cexFiles_paths_nodup : (cexFiles.map Oshub.RepoFile.Path).Nodup := by
  have hmap : cexFiles.map Oshub.RepoFile.Path
      = (List.range (filesToCheckMaxNumb + 1)).map natPath := by
    rw [cexFiles, List.map_map]
    rfl
  rw [hmap]
  exact (List.nodup_range _).map (fun a b hab => natPath_inj hab)

theorem cexFiles_length : cexFiles.length = filesToCheckMaxNumb + 1 := by
  rw [cexFiles, List.length_map, List.length_range]

set_option maxRecDepth 8000 in
theorem batches_cexFiles :
    batches cexFiles = [cexFiles.map (fun f => (f.Path, f.CRC32))] := by
  have hfill0 := fillBatch_nodup cexFiles []
    (by simpa using cexFiles_paths_nodup)
    (by rw [List.length_nil, cexFiles_length]; omega)
  have hfill : fillBatch [] cexFiles
      = (cexFiles.map (fun f => (f.Path, f.CRC32)), []) := by
    rw [hfill0, List.nil_append]
  have hne : (cexFiles.map (fun f => (f.Path, f.CRC32))).isEmpty = false := by
    rw [List.isEmpty_eq_false_iff_exists_mem]
    exact ⟨(natPath 0, 0), by
      rw [List.mem_map]
      exact ⟨{ Path := natPath 0, CRC32 := 0 }, by
        rw [cexFiles, List.mem_map]
        exact ⟨0, by simp [filesToCheckMaxNumb], rfl⟩, rfl⟩⟩
  rw [batches]
  rw [cexFiles_length]
  rw [batchesAux, hfill]
  simp only [hne, Bool.false_eq_true, if_false]
  rw [batchesAux, fillBatch]
  simp

/-- C1 counterexample: fed a queue of exactly filesToCheckMaxNumb + 1 = 501
distinct files, the batcher sends a single batch holding all 501 entries -
not two batches - because the Go loop breaks only after the insertion that
makes len(objectsToCheck) exceed 500.  The claim that every batch has
cardinality at most 500 and that 501 files force two batches is false of
the code. -/
theorem C1_counterexample :
    batches cexFiles = [cexFiles.map (fun f => (f.Path, f.CRC32))] ∧
    (cexFiles.map (fun f => (f.Path, f.CRC32))).length = filesToCheckMaxNumb + 1 ∧
    filesToCheckMaxNumb + 1 = 501 := by
  refine ⟨batches_cexFiles, ?_, rfl⟩
  rw [List.length_map, cexFiles_length]

end Fiopush
